import Mathlib

/-!
Verification of the ChannelCollection subsystem of the Fluid container runtime.

The definitions below are a shallow embedding of the TypeScript source of
`ChannelCollection` (data-store lifecycle, alias protocol, attach protocol,
GC interface and sweep deletion).  Pure functions of the source become Lean
functions; the mutable class state becomes an explicit
`ChannelCollectionState` threaded through each operation; JavaScript `Map`s
become association lists with first-key lookup; thrown errors become
`Except` results; telemetry and GC callbacks become explicit output lists.

Classes that the source file only imports (the `DataStoreContexts` table,
the per-store `FluidDataStoreContext`, and small `runtime-utils` helpers)
are modelled from the specification; each such definition carries a doc
comment starting with `Modelled from the spec:`.
-/

namespace FluidCC

set_option autoImplicit false

/-- Attach state of a container or of a data store context. -/
inductive AttachState where
  | Detached
  | Attaching
  | Attached
deriving DecidableEq, Repr

/-- Result of an alias operation (`AliasResult` in runtime-definitions). -/
inductive AliasResult where
  | Success
  | Conflict
  | AlreadyAliased
deriving DecidableEq, Repr

/-- Telemetry severity: `sendTelemetryEvent` with category `generic`, or an error event. -/
inductive Severity where
  | generic
  | error
deriving DecidableEq, Repr

/-- One telemetry event emitted through the monitoring context's logger. -/
structure LogEvent where
  eventName : String
  severity : Severity
deriving DecidableEq, Repr

/-- Errors thrown by the ChannelCollection: `DataCorruptionError`,
`DataProcessingError.create`, and failed `assert`s (internal consistency),
identified by their assert code. -/
inductive FluidError where
  | dataCorruption (message : String)
  | dataProcessing (message : String)
  | internalConsistency (code : Nat)
deriving DecidableEq, Repr

/-- Container-level message discriminator (`ContainerMessageType`). -/
inductive ContainerMessageType where
  | attach
  | alias'
  | fluidDataStoreOp
deriving DecidableEq, Repr

section AssocList

variable {α : Type}

/-- First-key lookup in an association list; the embedding of `Map.get`. -/
def alookup : List (String × α) → String → Option α
  | [], _ => none
  | (k, v) :: rest, key => if k = key then some v else alookup rest key

/-- Embedding of `Map.set`: replace the first binding of the key in place,
or append a new binding at the end (JavaScript `Map` insertion order). -/
def ainsert : List (String × α) → String → α → List (String × α)
  | [], key, v => [(key, v)]
  | (k, w) :: rest, key, v =>
    if k = key then (key, v) :: rest else (k, w) :: ainsert rest key v

/-- Update the value at a key in place (the embedding of mutating the object
held in the map, e.g. `context.setAttachState(...)`); no change if absent. -/
def aupdate (f : α → α) : List (String × α) → String → List (String × α)
  | [], _ => []
  | (k, v) :: rest, key =>
    if k = key then (k, f v) :: rest else (k, v) :: aupdate f rest key

/-- Embedding of `Map.delete`: remove the first binding of the key. -/
def aerase : List (String × α) → String → List (String × α)
  | [], _ => []
  | (k, v) :: rest, key => if k = key then rest else (k, v) :: aerase rest key

end AssocList

/-! ## JSON values and outbound-reference detection

`detectOutboundReferences` (src/unnamed/part_002, lines 1571-1606) walks an
op payload.  Payloads are JSON-shaped, embedded here as `JsonValue`.
JavaScript `Object.entries` on an array yields index/value pairs, so the
traversal descends into arrays as well; an array key is a numeral string and
can never equal `"address"`. -/

/-- JSON-shaped payload of a channel op. -/
inductive JsonValue where
  | null
  | bool (b : Bool)
  | num (n : Int)
  | str (s : String)
  | arr (elems : List JsonValue)
  | obj (fields : List (String × JsonValue))
deriving Repr

/-- Modelled from the spec: `isSerializedHandle` (runtime-utils, not under
`src/`); the spec defines the serialized-handle shape as
`\x7btype: "__fluid_handle__", url: string\x7d`. -/
def isSerializedHandle : JsonValue → Bool
  | .obj fields =>
    match alookup fields "type", alookup fields "url" with
    | some (.str t), some (.str _) => t = "__fluid_handle__"
    | _, _ => false
  | _ => false

/-- The `url` property of a serialized handle. -/
def handleUrl : JsonValue → String
  | .obj fields =>
    match alookup fields "url" with
    | some (.str u) => u
    | _ => ""
  | _ => ""

/-- State built up by `recursivelyFindHandles`: the `outboundPaths` array and
the first-wins `ddsAddress` variable. -/
structure TraversalState where
  outboundPaths : List String
  ddsAddress : Option JsonValue

/-- One entry step of `recursivelyFindHandles`: push the url when the value
is a serialized handle, and record the value when the key is `"address"` and
no DDS address was captured yet (first wins). -/
def entryStep (st : TraversalState) (key : String) (value : JsonValue) : TraversalState :=
  { outboundPaths :=
      st.outboundPaths ++ (if isSerializedHandle value then [handleUrl value] else []),
    ddsAddress :=
      if key = "address" && st.ddsAddress.isNone then some value else st.ddsAddress }

mutual

/-- Embedding of `recursivelyFindHandles` (lines 1580-1598): sequential
traversal of `Object.entries`, accumulating outbound paths and the first
`"address"` value. -/
def recursivelyFindHandles (st : TraversalState) : JsonValue → TraversalState
  | .obj fields => rfhFields st fields
  | .arr elems => rfhElems st elems
  | _ => st

/-- Traversal of the entries of an object. -/
def rfhFields (st : TraversalState) : List (String × JsonValue) → TraversalState
  | [] => st
  | (key, value) :: rest =>
    rfhFields (recursivelyFindHandles (entryStep st key value) value) rest

/-- Traversal of the entries of an array; the keys are the numeral strings
`"0"`, `"1"`, ..., which never equal `"address"`, so only the handle check
applies. -/
def rfhElems (st : TraversalState) : List JsonValue → TraversalState
  | [] => st
  | value :: rest =>
    let st1 :=
      if isSerializedHandle value then
        { st with outboundPaths := st.outboundPaths ++ [handleUrl value] }
      else st
    rfhElems (recursivelyFindHandles st1 value) rest

end

mutual

/-- JavaScript stringification of a value as an element in `Array.join`:
`null` and `undefined` become the empty string, other values go through
`String(-)`. -/
def jsJoinElem : JsonValue → String
  | .null => ""
  | .bool b => cond b "true" "false"
  | .num n => toString n
  | .str s => s
  | .arr elems => jsJoinElems elems
  | .obj _ => "[object Object]"

/-- `String(array)` is the comma-join of its elements. -/
def jsJoinElems : List JsonValue → String
  | [] => ""
  | [v] => jsJoinElem v
  | v :: rest => jsJoinElem v ++ "," ++ jsJoinElems rest

end

/-- Embedding of `detectOutboundReferences` (lines 1571-1606), returning the
list of `(fromNodePath, toNodePath)` pairs passed to `addedOutboundReference`
in order.  The from-path is `["", address, ddsAddress].join("/")`, where an
absent (`undefined`) `ddsAddress` joins as the empty string. -/
def detectOutboundReferences (address : String) (contents : JsonValue) :
    List (String × String) :=
  let st := recursivelyFindHandles ⟨[], none⟩ contents
  let fromPath := "" ++ "/" ++ address ++ "/" ++ (match st.ddsAddress with
    | none => ""
    | some v => jsJoinElem v)
  st.outboundPaths.map (fun toPath => (fromPath, toPath))

mutual

/-- Specification-side collection: the `url` values of every sub-object of
the payload matching the serialized-handle shape, in traversal order. -/
def subUrls : JsonValue → List String
  | .obj fields => subUrlsFields fields
  | .arr elems => subUrlsElems elems
  | _ => []

/-- Handle urls under the entries of an object. -/
def subUrlsFields : List (String × JsonValue) → List String
  | [] => []
  | (_, v) :: rest =>
    (if isSerializedHandle v then [handleUrl v] else []) ++ subUrls v ++ subUrlsFields rest

/-- Handle urls under the entries of an array. -/
def subUrlsElems : List JsonValue → List String
  | [] => []
  | v :: rest =>
    (if isSerializedHandle v then [handleUrl v] else []) ++ subUrls v ++ subUrlsElems rest

end

mutual

/-- Specification-side DDS address: the value of the first property named
`"address"` encountered during the traversal of the payload. -/
def firstAddress : JsonValue → Option JsonValue
  | .obj fields => firstAddressFields fields
  | .arr elems => firstAddressElems elems
  | _ => none

/-- First `"address"` value under the entries of an object. -/
def firstAddressFields : List (String × JsonValue) → Option JsonValue
  | [] => none
  | (key, v) :: rest =>
    (if key = "address" then some v else none) <|> firstAddress v <|> firstAddressFields rest

/-- First `"address"` value under the entries of an array (array keys are
numerals, never `"address"`). -/
def firstAddressElems : List JsonValue → Option JsonValue
  | [] => none
  | v :: rest => firstAddress v <|> firstAddressElems rest

end

/-! ## Data model of the ChannelCollection -/

/-- Storage service of a context.  `parent` is the container's storage;
`withAttachBlobs` is `StorageServiceWithAttachBlobs`.  Modelled from the
spec: `StorageServiceWithAttachBlobs` (storageServiceWithAttachBlobs.ts,
not under `src/`) "wraps the parent's storage and also serves blobs inlined
in the attach snapshot". -/
inductive StorageService where
  | parent
  | withAttachBlobs (inner : StorageService) (blobs : List (String × String))
deriving DecidableEq, Repr

/-- Blob read through a storage service, given the container storage's blob
table: inline attach blobs are served first, then the wrapped service. -/
def readBlob (parentBlobs : List (String × String)) :
    StorageService → String → Option String
  | .parent, blobId => alookup parentBlobs blobId
  | .withAttachBlobs inner blobs, blobId =>
    match alookup blobs blobId with
    | some b => some b
    | none => readBlob parentBlobs inner blobId

/-- Snapshot carried by an attach message, in flattened entry-list form.
`gcPairs` are the `(nodeId, toPath)` pairs that `processAttachMessageGCData`
reports from the snapshot's GC payload; `inlineBlobs` are the blobs that
`buildSnapshotTree` extracts from the entries (both helpers live in
runtime-utils / driver-utils, outside `src/`, and are modelled from the
spec's description of the attach snapshot). -/
structure SnapshotData where
  gcPairs : List (String × String)
  inlineBlobs : List (String × String)
  groupId : Option String
deriving DecidableEq, Repr

/-- Wire form of an attach message: `\x7bid, type, snapshot?\x7d`. -/
structure IAttachMessage where
  id : String
  type : String
  snapshot : Option SnapshotData
deriving DecidableEq, Repr

/-- Inline blobs carried by an attach message's snapshot (the blobs that
`buildSnapshotTree` collects into `flatAttachBlobs`); empty when there is no
snapshot. -/
def inlineBlobsOf (m : IAttachMessage) : List (String × String) :=
  match m.snapshot with
  | some sn => sn.inlineBlobs
  | none => []

/-- Modelled from the spec: per-store state of a `FluidDataStoreContext`
(dataStoreContext.ts, not under `src/`): internal id, package path, attach
state, root flag (resolved by `isRoot`, set by `setInMemoryRoot`), storage,
the GC nodes its channel reports, and the attach data used to build its
attach summary. -/
structure FluidDataStoreContext where
  id : String
  pkg : List String
  attachState : AttachState
  root : Bool
  storage : StorageService
  gcNodes : List (String × List String)
  attachData : SnapshotData
deriving DecidableEq, Repr

/-- Modelled from the spec: the `DataStoreContexts` table
(dataStoreContexts.ts, not under `src/`): an indexed collection of contexts
with a `notBound` id set; bound and remoted contexts are the addressable
partition. -/
structure DataStoreContexts where
  ctxs : List (String × FluidDataStoreContext)
  notBound : List String
deriving DecidableEq, Repr

namespace DataStoreContexts

/-- Modelled from the spec: `get(id)` returns the context regardless of
partition. -/
def get (t : DataStoreContexts) (id : String) : Option FluidDataStoreContext :=
  alookup t.ctxs id

/-- Modelled from the spec: `getUnbound(id)` returns the context only while
it is still in the unbound partition. -/
def getUnbound (t : DataStoreContexts) (id : String) : Option FluidDataStoreContext :=
  if t.notBound.contains id then alookup t.ctxs id else none

/-- Modelled from the spec: `addUnbound` adds a fresh local context to the
unbound partition. -/
def addUnbound (t : DataStoreContexts) (id : String) (c : FluidDataStoreContext) :
    DataStoreContexts :=
  { ctxs := ainsert t.ctxs id c, notBound := id :: t.notBound }

/-- Modelled from the spec: `addBoundOrRemoted` adds a context directly to
the addressable partition. -/
def addBoundOrRemoted (t : DataStoreContexts) (id : String) (c : FluidDataStoreContext) :
    DataStoreContexts :=
  { ctxs := ainsert t.ctxs id c, notBound := t.notBound }

/-- Modelled from the spec: `bind(id)` moves a context from the unbound to
the addressable partition. -/
def bind (t : DataStoreContexts) (id : String) : DataStoreContexts :=
  { t with notBound := t.notBound.erase id }

/-- Modelled from the spec: `delete(id)` removes the context from the
table. -/
def delete (t : DataStoreContexts) (id : String) : DataStoreContexts :=
  { ctxs := aerase t.ctxs id, notBound := t.notBound.erase id }

/-- Update the context object stored at an id in place. -/
def update (t : DataStoreContexts) (id : String)
    (f : FluidDataStoreContext → FluidDataStoreContext) : DataStoreContexts :=
  { t with ctxs := aupdate f t.ctxs id }

/-- Number of contexts in the table (`size`). -/
def size (t : DataStoreContexts) : Nat := t.ctxs.length

/-- Number of unbound contexts (`notBoundLength`). -/
def notBoundLength (t : DataStoreContexts) : Nat := t.notBound.length

end DataStoreContexts

/-- Mutable state of a `ChannelCollection` (src/unnamed/part_002, lines
388-418), together with the relevant parent-context inputs: the container's
attach state and the GC-owned `isDataStoreDeleted` predicate, modelled as
the list of deleted node paths. -/
structure ChannelCollectionState where
  containerAttachState : AttachState
  contexts : DataStoreContexts
  aliasMap : List (String × String)
  pendingAttach : List (String × IAttachMessage)
  pendingAliasMap : List (String × AliasResult)
  dataStoresSinceLastGC : List String
  attachOpFired : List String
  deletedNodes : List String
deriving DecidableEq, Repr

/-- The GC-provided `isDataStoreDeleted` callback. -/
def isDataStoreDeleted (s : ChannelCollectionState) (nodePath : String) : Bool :=
  s.deletedNodes.contains nodePath

/-- Embedding of `checkAndLogIfDeleted` (lines 1096-1116): true when the
node path `/id` is deleted, in which case the caller logs an error event. -/
def checkAndLogIfDeleted (s : ChannelCollectionState) (id : String) : Bool :=
  isDataStoreDeleted s ("/" ++ id)

/-- Embedding of `alreadyProcessed` (lines 676-678): the id is already an
alias or an existing context id. -/
def alreadyProcessed (s : ChannelCollectionState) (id : String) : Bool :=
  (alookup s.aliasMap id).isSome || (s.contexts.get id).isSome

/-- Embedding of `waitIfPendingAlias` (lines 513-516).  A pending promise is
modelled by its eventual `AliasResult`; absence resolves to `Success`. -/
def waitIfPendingAlias (s : ChannelCollectionState) (maybeAlias : String) : AliasResult :=
  match alookup s.pendingAliasMap maybeAlias with
  | some pendingAliasPromise => pendingAliasPromise
  | none => .Success

/-- Result of `processAliasMessageCore`: the boolean outcome, the new state,
the `addedGCOutboundReference` calls and the telemetry events. -/
structure AliasCoreOutcome where
  result : Bool
  state : ChannelCollectionState
  gcEdges : List (String × String)
  logs : List LogEvent
deriving DecidableEq, Repr

/-- Embedding of `processAliasMessageCore` (lines 644-674). -/
def processAliasMessageCore (s : ChannelCollectionState) (internalId aliasName : String) :
    AliasCoreOutcome :=
  if alreadyProcessed s aliasName then ⟨false, s, [], []⟩
  else
    if checkAndLogIfDeleted s internalId then
      ⟨false, s, [], [⟨"GC_Deleted_DataStore_Changed", .error⟩]⟩
    else
      match s.contexts.get internalId with
      | none => ⟨false, s, [], [⟨"AliasFluidDataStoreNotFound", .error⟩]⟩
      | some context =>
        ⟨true,
          { s with
            aliasMap := ainsert s.aliasMap aliasName context.id,
            contexts := s.contexts.update internalId (fun c => { c with root := true }) },
          [("/", "/" ++ internalId)], []⟩

/-- Result of `processAliasMessage`: the core outcome plus the invocations
of the resolver carried in `localOpMetadata`. -/
structure AliasOutcome where
  result : Bool
  state : ChannelCollectionState
  gcEdges : List (String × String)
  logs : List LogEvent
  resolverCalls : List Bool
deriving DecidableEq, Repr

/-- Embedding of `processAliasMessage` (lines 622-642) for a well-formed
alias message: the resolver is invoked with the boolean result exactly when
the op is local. -/
def processAliasMessage (s : ChannelCollectionState) (internalId aliasName : String)
    (local_ : Bool) : AliasOutcome :=
  let o := processAliasMessageCore s internalId aliasName
  ⟨o.result, o.state, o.gcEdges, o.logs, if local_ then [o.result] else []⟩

/-- Embedding of `generateAttachMessage` (lines 681-693): type is the last
element of the package path, snapshot is the context's attach data. -/
def generateAttachMessage (localContext : FluidDataStoreContext) : IAttachMessage :=
  { id := localContext.id,
    type := localContext.pkg.getLastD "",
    snapshot := some localContext.attachData }

/-- Embedding of `makeDataStoreLocallyVisible` (lines 700-715) together with
`submitAttachChannelOp` (lines 717-722); returns the new state and the
submitted attach messages.  A missing unbound context fails the 0x15f
assert. -/
def makeDataStoreLocallyVisible (s : ChannelCollectionState) (id : String) :
    Except FluidError (ChannelCollectionState × List IAttachMessage) :=
  match s.contexts.getUnbound id with
  | none => .error (.internalConsistency 0x15f)
  | some localContext =>
    if s.containerAttachState ≠ .Detached then
      -- setAttachState(Attaching); modelled from the spec: `set_attach_state`
      -- is the monotone per-context transition of §4.B.
      let s1 := { s with
        contexts := s.contexts.update id (fun c => { c with attachState := .Attaching }) }
      -- submitAttachChannelOp
      let message := generateAttachMessage localContext
      let s2 := { s1 with
        pendingAttach := ainsert s1.pendingAttach localContext.id message,
        attachOpFired := localContext.id :: s1.attachOpFired }
      .ok ({ s2 with contexts := s2.contexts.bind id }, [message])
    else
      .ok ({ s with contexts := s.contexts.bind id }, [])

/-- GC edges reported by `processAttachMessageGCData` for an attach message
(lines 540-547): from `/id` joined with the node path, to the target path.
The walk of the snapshot's GC payload itself (runtime-utils, outside
`src/`) is modelled from the spec as the snapshot's `gcPairs`. -/
def attachGCEdges (m : IAttachMessage) : List (String × String) :=
  let pairs : List (String × String) := match m.snapshot with
    | some sn => sn.gcPairs
    | none => []
  pairs.map (fun p => ("/" ++ m.id ++ (if p.1 = "/" then "" else p.1), p.2))

/-- Result of `processAttachMessage`: the new state plus the GC edges. -/
structure AttachOutcome where
  state : ChannelCollectionState
  gcEdges : List (String × String)
deriving DecidableEq, Repr

/-- Embedding of `processAttachMessage` (lines 534-620).  Local acks must be
in `pendingAttach` (assert 0x15e); duplicate remote ids are a
`DataCorruptionError`; a fresh remote id constructs a remote context whose
storage wraps the parent storage with the snapshot's inline blobs.
Modelled from the spec where the construction leaves `src/`: the remote
context starts Bound+Attached (§3). -/
def processAttachMessage (s : ChannelCollectionState) (m : IAttachMessage)
    (local_ : Bool) : Except FluidError AttachOutcome :=
  let s0 := { s with dataStoresSinceLastGC := s.dataStoresSinceLastGC ++ [m.id] }
  let edges := attachGCEdges m
  if local_ then
    if (alookup s0.pendingAttach m.id).isSome then
      .ok ⟨{ s0 with
        contexts := s0.contexts.update m.id (fun c => { c with attachState := .Attached }),
        pendingAttach := aerase s0.pendingAttach m.id }, edges⟩
    else
      .error (.internalConsistency 0x15e)
  else
    if alreadyProcessed s0 m.id then
      .error (.dataCorruption "Duplicate DataStore created with existing id")
    else
      let flatAttachBlobs := inlineBlobsOf m
      let remoteContext : FluidDataStoreContext :=
        { id := m.id,
          pkg := [m.type],
          attachState := .Attached,
          root := false,
          storage := .withAttachBlobs .parent flatAttachBlobs,
          gcNodes := [],
          attachData := ⟨[], [], none⟩ }
      .ok ⟨{ s0 with
        contexts := s0.contexts.addBoundOrRemoted m.id remoteContext }, edges⟩

/-- Modelled from the spec: `encodeCompactIdToString` (runtime-utils, not
under `src/`).  The spec only constrains it to encode a number compactly as
a short string with `encode(2*0+1) = "1"` (scenario S2); it is modelled as
the decimal representation. -/
def encodeCompactIdToString (n : Nat) : String := Nat.repr n

/-- Embedding of `createDataStoreId` (lines 740-755): even namespace while
detached, odd namespace for runtime numeric ids, uuid strings verbatim. -/
def createDataStoreId (containerAttachState : AttachState) (contextsSize : Nat)
    (generatedId : Nat ⊕ String) : String :=
  if containerAttachState = .Detached then
    encodeCompactIdToString (2 * contextsSize)
  else
    match generatedId with
    | .inl n => encodeCompactIdToString (2 * n + 1)
    | .inr uuid => uuid

/-- Embedding of `createContext` (lines 784-815): a fresh local context is
added to the unbound partition.  Modelled from the spec where the context
constructor leaves `src/`: a local new store starts Unbound+Detached (§3). -/
def createContext (s : ChannelCollectionState) (id : String) (pkg : List String) :
    ChannelCollectionState :=
  let context : FluidDataStoreContext :=
    { id := id,
      pkg := pkg,
      attachState := .Detached,
      root := false,
      storage := .parent,
      gcNodes := [],
      attachData := ⟨[], [], none⟩ }
  { s with contexts := s.contexts.addUnbound id context }

/-- Embedding of `createDataStoreContext` (lines 770-782): the id comes from
`createDataStoreId`. -/
def createDataStoreContext (s : ChannelCollectionState) (pkg : List String)
    (generatedId : Nat ⊕ String) : ChannelCollectionState :=
  createContext s (createDataStoreId s.containerAttachState s.contexts.size generatedId) pkg

/-- Embedding of `applyStashedAttachOp` (lines 897-941): builds the local
context from the stashed message's snapshot, adds it to the addressable
partition and, when the container is not detached, records the pending
attach entry.  Modelled from the spec where the construction leaves `src/`:
the replayed local store is in-flight Attaching in a non-detached container
(§3 and invariant 1, §8). -/
def applyStashedAttachOp (s : ChannelCollectionState) (m : IAttachMessage) :
    ChannelCollectionState :=
  let flatAttachBlobs := inlineBlobsOf m
  let dataStoreContext : FluidDataStoreContext :=
    { id := m.id,
      pkg := [],
      attachState := if s.containerAttachState ≠ .Detached then .Attaching else .Detached,
      root := false,
      storage := .withAttachBlobs .parent flatAttachBlobs,
      gcNodes := [],
      attachData := ⟨[], [], none⟩ }
  let s1 := { s with contexts := s.contexts.addBoundOrRemoted m.id dataStoreContext }
  if s.containerAttachState ≠ .Detached then
    { s1 with pendingAttach := ainsert s1.pendingAttach m.id m }
  else s1

/-- Embedding of `rollback` (lines 853-870): only channel ops can be rolled
back (assert 0x8e8); ops for deleted contexts are a `DataCorruptionError`;
a missing context fails assert 0x2e8; otherwise the rollback is delegated
to the context's channel and the collection state is unchanged. -/
def rollback (s : ChannelCollectionState) (msgType : ContainerMessageType)
    (address : String) : Except FluidError ChannelCollectionState :=
  if msgType ≠ .fluidDataStoreOp then .error (.internalConsistency 0x8e8)
  else if checkAndLogIfDeleted s address then
    .error (.dataCorruption "Context is deleted!")
  else
    match s.contexts.get address with
    | none => .error (.internalConsistency 0x2e8)
    | some _ => .ok s

/-- Embedding of `deleteChild` (lines 1356-1365): the context is deleted and
removed from the table and its summarizer node is deleted; returns the
deleted summarizer-node ids. -/
def deleteChild (s : ChannelCollectionState) (dataStoreId : String) :
    ChannelCollectionState × List String :=
  ({ s with contexts := s.contexts.delete dataStoreId }, [dataStoreId])

/-- Result of `deleteSweepReadyNodes`: the new state, the telemetry events,
the deleted summarizer-node ids and the returned routes. -/
structure SweepOutcome where
  state : ChannelCollectionState
  logs : List LogEvent
  deletedSummarizerNodes : List String
  returnedRoutes : List String
deriving DecidableEq, Repr

/-- Character-level splitting, the embedding of JavaScript
`route.split("/")`: `""` splits to `[""]`, `"/3"` to `["", "3"]`,
`"/3/dds/x"` to `["", "3", "dds", "x"]`. -/
def splitChars (sep : Char) : List Char → List (List Char)
  | [] => [[]]
  | c :: rest =>
    let r := splitChars sep rest
    if c = sep then [] :: r
    else
      match r with
      | [] => [[c]]
      | h :: t => (c :: h) :: t

/-- `route.split("/")` on strings. -/
def splitRoute (route : String) : List String :=
  (splitChars '/' route.data).map (fun l => ⟨l⟩)

/-- One loop iteration of `deleteSweepReadyNodes` (lines 1374-1401). -/
def sweepStep (acc : ChannelCollectionState × List LogEvent × List String)
    (route : String) : ChannelCollectionState × List LogEvent × List String :=
  let (s, logs, summ) := acc
  let pathParts := splitRoute route
  if pathParts.length > 2 then (s, logs, summ)
  else
    -- `pathParts[1]` stringifies to "undefined" when absent.
    let dataStoreId := pathParts[1]?.getD "undefined"
    match s.contexts.get dataStoreId with
    | none =>
      let alreadyDeleted := isDataStoreDeleted s ("/" ++ dataStoreId)
      (s,
        logs ++ [⟨"DeletedDataStoreNotFound", if alreadyDeleted then .generic else .error⟩],
        summ)
    | some _ =>
      let (s', d) := deleteChild s dataStoreId
      (s', logs, summ ++ d)

/-- Embedding of `deleteSweepReadyNodes` (lines 1373-1403): processes each
route in order and returns every input route as deleted. -/
def deleteSweepReadyNodes (s : ChannelCollectionState) (routes : List String) :
    SweepOutcome :=
  let (s', logs, summ) := routes.foldl sweepStep (s, [], [])
  ⟨s', logs, summ, routes⟩

/-- Prefixing of a child's GC node ids with `/contextId`
(`GCDataBuilder.prefixAndAddNodes`; runtime-utils, outside `src/`, modelled
from the spec: identifiers become absolute paths from the container root). -/
def prefixedGCNodes (contextId : String) (nodes : List (String × List String)) :
    List (String × List String) :=
  nodes.map (fun node =>
    ((if node.1 = "/" then "/" ++ contextId else "/" ++ contextId ++ node.1), node.2))

/-- Sequential walk of the context list inside `getGCData`: the filter
throws on the first context in Attaching state and keeps Attached ones,
whose prefixed GC nodes are collected. -/
def getGCDataAux : List (String × FluidDataStoreContext) →
    Except FluidError (List (String × List String))
  | [] => .ok []
  | (contextId, context) :: rest =>
    if context.attachState = .Attaching then
      .error (.dataProcessing "Local data store detected in attaching state while running GC")
    else if context.attachState = .Attached then
      match getGCDataAux rest with
      | .error e => .error e
      | .ok tail => .ok (prefixedGCNodes contextId context.gcNodes ++ tail)
    else
      getGCDataAux rest

/-- Embedding of `getOutboundRoutes` (lines 1436-1445): the absolute paths
of all root data stores. -/
def getOutboundRoutes (s : ChannelCollectionState) : List String :=
  s.contexts.ctxs.filterMap (fun kc => if kc.2.root then some ("/" ++ kc.1) else none)

/-- Embedding of `getGCData` (lines 1301-1332): child GC data prefixed per
context, plus the synthetic `/` node carrying the outbound routes. -/
def getGCData (s : ChannelCollectionState) :
    Except FluidError (List (String × List String)) :=
  match getGCDataAux s.contexts.ctxs with
  | .error e => .error e
  | .ok childNodes => .ok (childNodes ++ [("/", getOutboundRoutes s)])

/-- Envelope of a `FluidDataStoreOp` container message. -/
structure Envelope where
  address : String
  opType : String
  content : JsonValue

/-- Embedding of the `FluidDataStoreOp` branch of `process` (lines 956-981)
together with `processChannelOp` (lines 987-1027): ops for deleted contexts
are logged and dropped, a missing context is a `DataProcessingError`, and
outbound references are detected unless the `detectOutboundRoutesViaDDSKey`
config flag is `true` or no GC callback was supplied.  Returns the state
and the detected `(from, to)` reference pairs. -/
def processFluidDataStoreOp (s : ChannelCollectionState) (envelope : Envelope)
    (detectOutboundRoutesViaDDS : Option Bool) (hasAddedOutboundReference : Bool) :
    Except FluidError (ChannelCollectionState × List (String × String)) :=
  let detected :=
    if detectOutboundRoutesViaDDS ≠ some true && hasAddedOutboundReference then
      detectOutboundReferences envelope.address envelope.content
    else []
  if checkAndLogIfDeleted s envelope.address then
    .ok (s, detected)
  else
    match s.contexts.get envelope.address with
    | none => .error (.dataProcessing "No context for op")
    | some _ => .ok (s, detected)

/-- Decidable well-formedness of the collection state: every context records
its own table key, table and pending-attach keys are free of duplicates and
the unbound partition only names existing contexts. -/
def StateWF (s : ChannelCollectionState) : Prop :=
  (∀ kc ∈ s.contexts.ctxs, kc.2.id = kc.1) ∧
  (s.contexts.ctxs.map Prod.fst).Nodup ∧
  (s.pendingAttach.map Prod.fst).Nodup ∧
  (∀ id ∈ s.contexts.notBound, (alookup s.contexts.ctxs id).isSome)

instance (s : ChannelCollectionState) : Decidable (StateWF s) := by
  unfold StateWF
  infer_instance

/-! ## Invariant of the pending-attach bookkeeping -/

/-- Key set of the pending-attach map. -/
def pendingIds (s : ChannelCollectionState) : List String :=
  s.pendingAttach.map Prod.fst

/-- Context ids whose attach state is Attaching. -/
def attachingIds (s : ChannelCollectionState) : List String :=
  s.contexts.ctxs.filterMap
    (fun kc => if kc.2.attachState = .Attaching then some kc.1 else none)

/-- Invariant 1 of the spec (§8): while the container is not detached, the
key set of the pending-attach map equals the set of context ids in
Attaching state. -/
def PendingAttachInv (s : ChannelCollectionState) : Prop :=
  s.containerAttachState ≠ .Detached →
    ((pendingIds s).all (fun id => (attachingIds s).contains id) = true ∧
     (attachingIds s).all (fun id => (pendingIds s).contains id) = true)

instance (s : ChannelCollectionState) : Decidable (PendingAttachInv s) := by
  unfold PendingAttachInv
  infer_instance

/-! ## Concrete sample states used by witnesses and counterexamples -/

/-- The state of a freshly constructed collection with no base snapshot. -/
def initialState (containerAttachState : AttachState) : ChannelCollectionState :=
  { containerAttachState := containerAttachState,
    contexts := ⟨[], []⟩,
    aliasMap := [],
    pendingAttach := [],
    pendingAliasMap := [],
    dataStoresSinceLastGC := [],
    attachOpFired := [],
    deletedNodes := [] }

/-- A plain attached sample context. -/
def sampleContext (id : String) : FluidDataStoreContext :=
  { id := id,
    pkg := ["pkg"],
    attachState := .Attached,
    root := false,
    storage := .parent,
    gcNodes := [],
    attachData := ⟨[], [], none⟩ }

/-- Attached container holding one addressable attached store `"7"`. -/
def wAliasState : ChannelCollectionState :=
  { initialState .Attached with contexts := ⟨[("7", sampleContext "7")], []⟩ }

/-- Attached container holding one unbound local store `"5"`. -/
def wAttachState : ChannelCollectionState :=
  { initialState .Attached with
    contexts := ⟨[("5", { sampleContext "5" with pkg := ["p", "q"], attachState := .Detached })],
      ["5"]⟩ }

/-- A remote attach message with a snapshot carrying GC pairs and an inline
blob. -/
def wRemoteAttachMessage : IAttachMessage :=
  { id := "9", type := "T", snapshot := some ⟨[("/", "/t")], [("b1", "blobdata")], none⟩ }

/-- The serialized handle of scenario S4, pointing at `"/2/dds1"`. -/
def s4Handle : JsonValue :=
  .obj [("type", .str "__fluid_handle__"), ("url", .str "/2/dds1")]

/-- The op content of scenario S4: a handle plus a DDS `address`. -/
def s4Content : JsonValue :=
  .obj [("handle", s4Handle), ("address", .str "dds0")]

/-- The op envelope of scenario S4, addressed to store `"1"`. -/
def s4Envelope : Envelope :=
  { address := "1", opType := "op", content := s4Content }

/-- Attached container holding one addressable attached store `"1"`. -/
def wOpState : ChannelCollectionState :=
  { initialState .Attached with contexts := ⟨[("1", sampleContext "1")], []⟩ }

/-- A payload with one handle and no `address` property anywhere. -/
def wNoAddressContent : JsonValue :=
  .obj [("h", .obj [("type", .str "__fluid_handle__"), ("url", .str "/z")])]

/-- Attached container with an attached root store carrying GC nodes. -/
def wGCState : ChannelCollectionState :=
  { initialState .Attached with
    contexts := ⟨[("6",
      { sampleContext "6" with root := true, gcNodes := [("/", ["/r"]), ("/dds", [])] })], []⟩ }

/-- Attached container with a store stuck in Attaching state. -/
def wGCAttachingState : ChannelCollectionState :=
  { initialState .Attached with
    contexts := ⟨[("6", { sampleContext "6" with attachState := .Attaching })], []⟩ }

/-- Attached container holding store `"3"`, with `/4` recorded as already
deleted by GC. -/
def wSweepState : ChannelCollectionState :=
  { initialState .Attached with
    contexts := ⟨[("3", sampleContext "3")], []⟩,
    deletedNodes := ["/4"] }

/-- State with one pending alias promise for `"x"`. -/
def wPendingAliasState : ChannelCollectionState :=
  { initialState .Attached with pendingAliasMap := [("x", .Conflict)] }

/-- Trace state 0 of the pending-attach counterexample: fresh attached
container. -/
def cexState0 : ChannelCollectionState := initialState .Attached

/-- Trace state 1: one store created (`createDataStoreId` yields the compact
encoding of `2*0+1`, i.e. `"1"`). -/
def cexState1 : ChannelCollectionState := createDataStoreContext cexState0 ["pkg"] (.inl 0)

/-- Trace state 2: store `"1"` made locally visible (Attaching, pending
attach entry recorded). -/
def cexState2 : ChannelCollectionState :=
  match makeDataStoreLocallyVisible cexState1 "1" with
  | .ok r => r.1
  | .error _ => cexState1

/-- Trace state 3: store `"1"` sweep-deleted while still Attaching. -/
def cexState3 : ChannelCollectionState := (deleteSweepReadyNodes cexState2 ["/1"]).state

/-! ## Proofs -/

section AssocListLemmas

variable {α : Type}

@[simp] theorem alookup_nil (key : String) : alookup ([] : List (String × α)) key = none := rfl

@[simp] theorem alookup_cons (k : String) (v : α) (rest : List (String × α)) (key : String) :
    alookup ((k, v) :: rest) key = if k = key then some v else alookup rest key := rfl

theorem alookup_ainsert (l : List (String × α)) (key : String) (v : α) :
    alookup (ainsert l key v) key = some v := by
  induction l with
  | nil => simp [ainsert]
  | cons hd tl ih =>
    obtain ⟨k, w⟩ := hd
    by_cases h : k = key <;> simp [ainsert, h, ih]

theorem alookup_ainsert_ne (l : List (String × α)) (key key' : String) (v : α)
    (h : key ≠ key') : alookup (ainsert l key v) key' = alookup l key' := by
  induction l with
  | nil => simp [ainsert, h]
  | cons hd tl ih =>
    obtain ⟨k, w⟩ := hd
    by_cases hk : k = key
    · subst hk
      simp [ainsert, h]
    · simp [ainsert, hk]
      split <;> simp_all

theorem alookup_aupdate (f : α → α) (l : List (String × α)) (key : String) :
    alookup (aupdate f l key) key = (alookup l key).map f := by
  induction l with
  | nil => simp [aupdate]
  | cons hd tl ih =>
    obtain ⟨k, w⟩ := hd
    by_cases h : k = key <;> simp [aupdate, h, ih]

theorem alookup_aupdate_ne (f : α → α) (l : List (String × α)) (key key' : String)
    (h : key ≠ key') : alookup (aupdate f l key) key' = alookup l key' := by
  induction l with
  | nil => simp [aupdate]
  | cons hd tl ih =>
    obtain ⟨k, w⟩ := hd
    by_cases hk : k = key
    · subst hk
      simp [aupdate, if_neg h]
    · simp [aupdate, hk]
      split <;> simp [ih]

theorem alookup_aerase_ne (l : List (String × α)) (key key' : String) (h : key ≠ key') :
    alookup (aerase l key) key' = alookup l key' := by
  induction l with
  | nil => simp [aerase]
  | cons hd tl ih =>
    obtain ⟨k, w⟩ := hd
    by_cases hk : k = key
    · subst hk
      simp [aerase, fun hkk : k = key' => h hkk]
    · simp [aerase, hk]
      split <;> simp [ih]

theorem alookup_aerase_self (l : List (String × α)) (key : String)
    (h : (l.map Prod.fst).Nodup) : alookup (aerase l key) key = none := by
  induction l with
  | nil => simp [aerase]
  | cons hd tl ih =>
    obtain ⟨k, w⟩ := hd
    simp only [List.map_cons, List.nodup_cons] at h
    by_cases hk : k = key
    · subst hk
      simp only [aerase, if_pos rfl]
      cases hlook : alookup tl k with
      | none => exact hlook
      | some v =>
        exfalso
        have : k ∈ tl.map Prod.fst := by
          clear ih h
          induction tl with
          | nil => simp [alookup] at hlook
          | cons hd' tl' ih' =>
            obtain ⟨k', w'⟩ := hd'
            simp only [alookup_cons] at hlook
            by_cases hkk : k' = k
            · simp [hkk]
            · simp only [if_neg hkk] at hlook
              simp [ih' hlook]
        exact h.1 this
    · simp [aerase, hk, ih h.2]

theorem mem_keys_of_alookup_isSome (l : List (String × α)) (key : String)
    (h : (alookup l key).isSome) : key ∈ l.map Prod.fst := by
  induction l with
  | nil => simp [alookup] at h
  | cons hd tl ih =>
    obtain ⟨k, w⟩ := hd
    by_cases hk : k = key
    · simp [hk]
    · simp only [alookup_cons, if_neg hk] at h
      simp [ih h]

theorem alookup_isSome_of_mem_keys (l : List (String × α)) (key : String)
    (h : key ∈ l.map Prod.fst) : (alookup l key).isSome := by
  induction l with
  | nil => simp at h
  | cons hd tl ih =>
    obtain ⟨k, w⟩ := hd
    by_cases hk : k = key
    · simp [hk]
    · simp only [List.map_cons, List.mem_cons] at h
      rcases h with h | h
      · exact absurd h.symm hk
      · simp [hk, ih h]

theorem alookup_mem (l : List (String × α)) (key : String) (v : α)
    (h : alookup l key = some v) : (key, v) ∈ l := by
  induction l with
  | nil => simp [alookup] at h
  | cons hd tl ih =>
    obtain ⟨k, w⟩ := hd
    by_cases hk : k = key
    · subst hk
      simp at h
      simp [h]
    · simp only [alookup_cons, if_neg hk] at h
      simp [ih h]

theorem ainsert_mem_keys (l : List (String × α)) (key key' : String) (v : α) :
    key' ∈ (ainsert l key v).map Prod.fst ↔ key' = key ∨ key' ∈ l.map Prod.fst := by
  induction l with
  | nil => simp [ainsert, eq_comm]
  | cons hd tl ih =>
    obtain ⟨k, w⟩ := hd
    by_cases hk : k = key
    · subst hk
      simp [ainsert]
    · simp only [ainsert, if_neg hk, List.map_cons, List.mem_cons, ih]
      tauto

theorem ainsert_keys_nodup (l : List (String × α)) (key : String) (v : α)
    (h : (l.map Prod.fst).Nodup) : ((ainsert l key v).map Prod.fst).Nodup := by
  induction l with
  | nil => simp [ainsert]
  | cons hd tl ih =>
    obtain ⟨k, w⟩ := hd
    simp only [List.map_cons, List.nodup_cons] at h
    by_cases hk : k = key
    · subst hk
      simpa [ainsert] using h
    · simp only [ainsert, if_neg hk, List.map_cons, List.nodup_cons]
      refine ⟨?_, ih h.2⟩
      intro hmem
      rw [ainsert_mem_keys] at hmem
      rcases hmem with hmem | hmem
      · exact hk hmem
      · exact h.1 hmem

theorem aupdate_keys (f : α → α) (l : List (String × α)) (key : String) :
    (aupdate f l key).map Prod.fst = l.map Prod.fst := by
  induction l with
  | nil => simp [aupdate]
  | cons hd tl ih =>
    obtain ⟨k, w⟩ := hd
    by_cases hk : k = key <;> simp [aupdate, hk, ih]

theorem aerase_sublist (l : List (String × α)) (key : String) : (aerase l key).Sublist l := by
  induction l with
  | nil => simp [aerase]
  | cons hd tl ih =>
    obtain ⟨k, w⟩ := hd
    by_cases hk : k = key
    · simp only [aerase, if_pos hk]
      exact (List.sublist_cons_self _ _)
    · simp only [aerase, if_neg hk]
      exact ih.cons₂ _

theorem aerase_keys_nodup (l : List (String × α)) (key : String)
    (h : (l.map Prod.fst).Nodup) : ((aerase l key).map Prod.fst).Nodup :=
  ((aerase_sublist l key).map Prod.fst).nodup h

theorem alookup_of_alookup_aerase (l : List (String × α)) (key key' : String) (v : α)
    (hn : (l.map Prod.fst).Nodup) (h : alookup (aerase l key) key' = some v) :
    alookup l key' = some v := by
  by_cases hk : key = key'
  · subst hk
    rw [alookup_aerase_self l key hn] at h
    exact absurd h (by simp)
  · rw [alookup_aerase_ne l key key' hk] at h
    exact h

theorem mem_keys_of_mem_filterMap (p : α → Prop) [DecidablePred p]
    (l : List (String × α)) (key : String)
    (h : key ∈ l.filterMap (fun kc => if p kc.2 then some kc.1 else none)) :
    key ∈ l.map Prod.fst := by
  induction l with
  | nil => simp at h
  | cons hd tl ih =>
    obtain ⟨k, w⟩ := hd
    simp only [List.filterMap_cons] at h
    by_cases hp : p w
    · simp only [hp, if_pos] at h
      rcases List.mem_cons.mp h with h | h
      · simp [h]
      · simp [ih h]
    · simp only [if_neg hp] at h
      simp [ih h]

theorem mem_filterMap_keys_iff (p : α → Prop) [DecidablePred p]
    (l : List (String × α)) (key : String)
    (hn : (l.map Prod.fst).Nodup) :
    key ∈ l.filterMap (fun kc => if p kc.2 then some kc.1 else none) ↔
      ∃ c, alookup l key = some c ∧ p c := by
  induction l with
  | nil => simp
  | cons hd tl ih =>
    obtain ⟨k, w⟩ := hd
    simp only [List.map_cons, List.nodup_cons] at hn
    simp only [List.filterMap_cons]
    by_cases hk : k = key
    · subst hk
      have hnotin : ¬ k ∈ tl.filterMap (fun kc => if p kc.2 then some kc.1 else none) :=
        fun hmem => hn.1 (mem_keys_of_mem_filterMap p tl k hmem)
      by_cases hp : p w <;> simp [hp, hnotin]
    · have hlk : alookup ((k, w) :: tl) key = alookup tl key := by simp [hk]
      rw [hlk]
      by_cases hp : p w
      · simp only [hp, if_pos]
        rw [List.mem_cons]
        rw [ih hn.2]
        constructor
        · rintro (h | h)
          · exact absurd h.symm hk
          · exact h
        · intro h
          exact Or.inr h
      · simp only [if_neg hp]
        exact ih hn.2

end AssocListLemmas

theorem entryStep_paths (st : TraversalState) (key : String) (v : JsonValue) :
    (entryStep st key v).outboundPaths =
      st.outboundPaths ++ (if isSerializedHandle v then [handleUrl v] else []) := rfl

theorem entryStep_address (st : TraversalState) (key : String) (v : JsonValue) :
    (entryStep st key v).ddsAddress =
      (st.ddsAddress <|> (if key = "address" then some v else none)) := by
  unfold entryStep
  cases hd : st.ddsAddress with
  | none => by_cases hk : key = "address" <;> simp [hk, hd, Option.orElse]
  | some a => by_cases hk : key = "address" <;> simp [hk, hd, Option.orElse]

mutual

/-- The stateful traversal appends exactly the specification-side handle urls
and resolves the DDS address first-wins. -/
theorem recursivelyFindHandles_eq (st : TraversalState) (v : JsonValue) :
    recursivelyFindHandles st v =
      ⟨st.outboundPaths ++ subUrls v, st.ddsAddress <|> firstAddress v⟩ := by
  cases v with
  | obj fields =>
    rw [recursivelyFindHandles, rfhFields_eq]
    simp [subUrls, firstAddress]
  | arr elems =>
    rw [recursivelyFindHandles, rfhElems_eq]
    simp [subUrls, firstAddress]
  | null => cases st with | _ p d => cases d <;> simp [recursivelyFindHandles, subUrls, firstAddress, Option.orElse]
  | bool b => cases st with | _ p d => cases d <;> simp [recursivelyFindHandles, subUrls, firstAddress, Option.orElse]
  | num n => cases st with | _ p d => cases d <;> simp [recursivelyFindHandles, subUrls, firstAddress, Option.orElse]
  | str s => cases st with | _ p d => cases d <;> simp [recursivelyFindHandles, subUrls, firstAddress, Option.orElse]

/-- Field-list version of `recursivelyFindHandles_eq`. -/
theorem rfhFields_eq (st : TraversalState) (fs : List (String × JsonValue)) :
    rfhFields st fs =
      ⟨st.outboundPaths ++ subUrlsFields fs, st.ddsAddress <|> firstAddressFields fs⟩ := by
  cases fs with
  | nil =>
    cases st with
    | _ p d => cases d <;> simp [rfhFields, subUrlsFields, firstAddressFields, Option.orElse]
  | cons hd rest =>
    obtain ⟨key, v⟩ := hd
    rw [rfhFields, rfhFields_eq, recursivelyFindHandles_eq]
    simp only [subUrlsFields, firstAddressFields, entryStep_paths, entryStep_address,
      TraversalState.mk.injEq]
    refine ⟨by simp [List.append_assoc], ?_⟩
    cases hdd : st.ddsAddress <;> by_cases hk : key = "address" <;>
      cases hfa : firstAddress v <;> simp [hk, hfa, Option.orElse]

/-- Element-list version of `recursivelyFindHandles_eq`. -/
theorem rfhElems_eq (st : TraversalState) (es : List JsonValue) :
    rfhElems st es =
      ⟨st.outboundPaths ++ subUrlsElems es, st.ddsAddress <|> firstAddressElems es⟩ := by
  cases es with
  | nil =>
    cases st with
    | _ p d => cases d <;> simp [rfhElems, subUrlsElems, firstAddressElems, Option.orElse]
  | cons v rest =>
    rw [rfhElems, rfhElems_eq, recursivelyFindHandles_eq]
    simp only [subUrlsElems, firstAddressElems, TraversalState.mk.injEq]
    by_cases h : isSerializedHandle v <;>
      refine ⟨by simp [h, List.append_assoc], ?_⟩ <;>
      cases hdd : st.ddsAddress <;> cases hfa : firstAddress v <;>
        simp [h, hdd, hfa, Option.orElse]

end

/-- Pointwise description of the emissions of `detectOutboundReferences`. -/
theorem detectOutboundReferences_eq (address : String) (contents : JsonValue) :
    detectOutboundReferences address contents =
      (subUrls contents).map (fun u =>
        ("/" ++ address ++ "/" ++ (match firstAddress contents with
          | none => ""
          | some v => jsJoinElem v), u)) := by
  unfold detectOutboundReferences
  rw [recursivelyFindHandles_eq]
  cases hfa : firstAddress contents <;> simp [hfa, Option.orElse]

/-! ## Claim theorems -/

/-- C8: `createDataStoreId` uses three disjoint namespaces: detached
containers get the compact encoding of `2 * (number of contexts)` (even
namespace); attached containers with a runtime numeric id `n` get the
compact encoding of `2 * n + 1` (odd namespace, disjoint from the even
one); a runtime string UUID is returned verbatim.  The first store created
in an attached container (`n = 0`) gets the compact encoding of `1`. -/
theorem createDataStoreId_namespaces (contextsSize n : Nat) (uuid : String)
    (containerAttachState : AttachState) :
    createDataStoreId .Detached contextsSize (.inl n) =
      encodeCompactIdToString (2 * contextsSize) ∧
    createDataStoreId .Detached contextsSize (.inr uuid) =
      encodeCompactIdToString (2 * contextsSize) ∧
    (containerAttachState ≠ .Detached →
      createDataStoreId containerAttachState contextsSize (.inl n) =
        encodeCompactIdToString (2 * n + 1) ∧
      createDataStoreId containerAttachState contextsSize (.inr uuid) = uuid) ∧
    2 * contextsSize ≠ 2 * n + 1 ∧
    createDataStoreId .Attached contextsSize (.inl 0) = encodeCompactIdToString 1 := by
  refine ⟨rfl, rfl, ?_, by omega, rfl⟩
  intro h
  unfold createDataStoreId
  simp only [if_neg h]
  exact ⟨trivial, trivial⟩

/-- Witness for C8 at concrete inputs: an attached container with three
contexts and runtime id 0 yields the encoding of 1, and a runtime UUID is
returned verbatim. -/
theorem createDataStoreId_namespaces_witness :
    (AttachState.Attached ≠ AttachState.Detached) ∧
    createDataStoreId .Attached 3 (.inl 0) = encodeCompactIdToString 1 ∧
    createDataStoreId .Attached 3 (.inr "uuid-x") = "uuid-x" := by
  have h := createDataStoreId_namespaces 3 0 "uuid-x" .Attached
  exact ⟨by decide, h.2.2.2.2, (h.2.2.1 (by decide)).2⟩

/-- C9: `waitIfPendingAlias` resolves to `Success` when the alias has no
pending entry, and returns the pending promise (its eventual alias outcome)
when an entry exists. -/
theorem waitIfPendingAlias_spec (s : ChannelCollectionState) (maybeAlias : String) :
    (alookup s.pendingAliasMap maybeAlias = none →
      waitIfPendingAlias s maybeAlias = .Success) ∧
    (∀ r, alookup s.pendingAliasMap maybeAlias = some r →
      waitIfPendingAlias s maybeAlias = r) := by
  unfold waitIfPendingAlias
  constructor
  · intro h
    rw [h]
  · intro r h
    rw [h]

/-- Witness for C9: with one pending alias `"x" ↦ Conflict`, an absent alias
resolves `Success` and the pending one returns its eventual outcome. -/
theorem waitIfPendingAlias_spec_witness :
    waitIfPendingAlias wPendingAliasState "y" = .Success ∧
    waitIfPendingAlias wPendingAliasState "x" = .Conflict :=
  ⟨(waitIfPendingAlias_spec wPendingAliasState "y").1 rfl,
   (waitIfPendingAlias_spec wPendingAliasState "x").2 .Conflict rfl⟩

/-- C5: `detectOutboundReferences` is a pure function of the address and the
op contents: the emissions are exactly the `url` values of the sub-objects
matching the serialized-handle shape, in traversal order, each with
from-path `"/" ++ address ++ "/" ++ d` where `d` is the first `"address"`
property value of the traversal; and `process` performs this detection for
every successfully processed `FluidDataStoreOp` while the
`detectOutboundRoutesViaDDSKey` flag is not `true`. -/
theorem detectOutboundReferences_spec :
    (∀ (address : String) (contents : JsonValue),
      detectOutboundReferences address contents =
        (subUrls contents).map (fun u =>
          ("/" ++ address ++ "/" ++ (match firstAddress contents with
            | none => ""
            | some v => jsJoinElem v), u))) ∧
    (∀ (s : ChannelCollectionState) (envelope : Envelope) (cfg : Option Bool)
        (r : ChannelCollectionState × List (String × String)),
      cfg ≠ some true →
      processFluidDataStoreOp s envelope cfg true = .ok r →
      r.2 = detectOutboundReferences envelope.address envelope.content) := by
  constructor
  · exact detectOutboundReferences_eq
  · intro s envelope cfg r hcfg hok
    have hd : decide (cfg ≠ some true) = true := decide_eq_true hcfg
    simp only [processFluidDataStoreOp, hd, Bool.true_and, Bool.and_self, if_true] at hok
    split at hok
    · cases hok
      rfl
    · split at hok
      · cases hok
      · cases hok
        rfl

/-- Witness for C5 at scenario S4: the op addressed to store `"1"` with a
handle to `"/2/dds1"` and DDS address `"dds0"` emits exactly
`("/1/dds0", "/2/dds1")`. -/
theorem detectOutboundReferences_spec_witness :
    ((some false : Option Bool) ≠ some true) ∧
    processFluidDataStoreOp wOpState s4Envelope (some false) true =
      .ok (wOpState, [("/1/dds0", "/2/dds1")]) ∧
    [(("/1/dds0" : String), ("/2/dds1" : String))] =
      detectOutboundReferences s4Envelope.address s4Envelope.content := by
  refine ⟨by decide, by rfl, ?_⟩
  exact detectOutboundReferences_spec.2 wOpState s4Envelope (some false)
    (wOpState, [("/1/dds0", "/2/dds1")]) (by decide) (by rfl)

/-- C10: a payload containing at least one serialized handle but no property
named `"address"` anywhere is emitted with from-path
`"/" ++ dataStoreId ++ "/"`: the undefined DDS address joins into the path
as the empty string. -/
theorem detectOutboundReferences_no_address (address : String) (contents : JsonValue)
    (hnoaddr : firstAddress contents = none) (_hhandles : subUrls contents ≠ []) :
    detectOutboundReferences address contents =
      (subUrls contents).map (fun u => ("/" ++ address ++ "/", u)) := by
  rw [detectOutboundReferences_eq, hnoaddr]
  simp

/-- Witness for C10: a single handle to `"/z"` with no `"address"` property
is emitted from `"/8/"`. -/
theorem detectOutboundReferences_no_address_witness :
    detectOutboundReferences "8" wNoAddressContent = [("/8/", "/z")] := by
  rw [detectOutboundReferences_no_address "8" wNoAddressContent rfl (by decide)]
  rfl

theorem getGCDataAux_error (l : List (String × FluidDataStoreContext))
    (h : ∃ kc ∈ l, kc.2.attachState = .Attaching) :
    getGCDataAux l = .error (.dataProcessing
      "Local data store detected in attaching state while running GC") := by
  induction l with
  | nil => simp at h
  | cons hd rest ih =>
    obtain ⟨cid, c⟩ := hd
    by_cases hc : c.attachState = .Attaching
    · simp [getGCDataAux, hc]
    · have hrest : ∃ kc ∈ rest, kc.2.attachState = .Attaching := by
        rcases h with ⟨kc, hmem, hatt⟩
        rcases List.mem_cons.mp hmem with heq | hmem'
        · subst heq
          exact absurd hatt hc
        · exact ⟨kc, hmem', hatt⟩
      by_cases hc2 : c.attachState = .Attached <;>
        simp [getGCDataAux, hc, hc2, ih hrest]

theorem getGCDataAux_ok (l : List (String × FluidDataStoreContext))
    (h : ∀ kc ∈ l, kc.2.attachState ≠ .Attaching) :
    getGCDataAux l = .ok
      ((l.filter (fun kc => kc.2.attachState = .Attached)).flatMap
        (fun kc => prefixedGCNodes kc.1 kc.2.gcNodes)) := by
  induction l with
  | nil => simp [getGCDataAux]
  | cons hd rest ih =>
    obtain ⟨cid, c⟩ := hd
    have hc := h (cid, c) (List.mem_cons_self _ _)
    have ihh := ih (fun kc hm => h kc (List.mem_cons_of_mem _ hm))
    by_cases hc2 : c.attachState = .Attached <;>
      simp [getGCDataAux, hc, hc2, ihh, List.filter_cons]

/-- C6: `getGCData` fails with a `DataProcessingError` when any context is
in Attaching state; otherwise it collects GC data only from Attached
contexts, prefixing every child node id with `/contextId`, and adds a `/`
node whose outbound routes are `/id` for every root store. -/
theorem getGCData_spec (s : ChannelCollectionState) :
    ((∃ kc ∈ s.contexts.ctxs, kc.2.attachState = .Attaching) →
      getGCData s = .error (.dataProcessing
        "Local data store detected in attaching state while running GC")) ∧
    ((∀ kc ∈ s.contexts.ctxs, kc.2.attachState ≠ .Attaching) →
      getGCData s = .ok
        (((s.contexts.ctxs.filter (fun kc => kc.2.attachState = .Attached)).flatMap
          (fun kc => prefixedGCNodes kc.1 kc.2.gcNodes)) ++
          [("/", getOutboundRoutes s)])) := by
  constructor
  · intro h
    simp [getGCData, getGCDataAux_error s.contexts.ctxs h]
  · intro h
    simp [getGCData, getGCDataAux_ok s.contexts.ctxs h]

/-- Witness for C6: a store stuck in Attaching aborts GC; an attached root
store `"6"` with nodes `/` and `/dds` yields absolute ids `/6`, `/6/dds`
and the root node `/` routing to `/6`. -/
theorem getGCData_spec_witness :
    getGCData wGCAttachingState = .error (.dataProcessing
      "Local data store detected in attaching state while running GC") ∧
    getGCData wGCState = .ok [("/6", ["/r"]), ("/6/dds", []), ("/", ["/6"])] := by
  constructor
  · exact (getGCData_spec wGCAttachingState).1 (by decide)
  · rw [(getGCData_spec wGCState).2 (by decide)]
    rfl

/-- C7: `deleteSweepReadyNodes` returns the entire input route list; routes
with more than two path segments cause no deletion; a data-store route
`/id` whose context exists deletes the context and its summarizer node; a
missing context is logged at `generic` severity when the store was already
deleted and at `error` severity otherwise, without throwing. -/
theorem deleteSweepReadyNodes_spec :
    (∀ (s : ChannelCollectionState) (routes : List String),
      (deleteSweepReadyNodes s routes).returnedRoutes = routes) ∧
    (∀ (s : ChannelCollectionState) (logs : List LogEvent) (summ : List String)
        (route : String),
      ((splitRoute route).length > 2 → sweepStep (s, logs, summ) route = (s, logs, summ)) ∧
      (∀ id, splitRoute route = ["", id] →
        ((s.contexts.get id).isSome →
          sweepStep (s, logs, summ) route =
            ({ s with contexts := s.contexts.delete id }, logs, summ ++ [id])) ∧
        (s.contexts.get id = none →
          sweepStep (s, logs, summ) route =
            (s, logs ++ [⟨"DeletedDataStoreNotFound",
              if isDataStoreDeleted s ("/" ++ id) then .generic else .error⟩], summ)))) := by
  constructor
  · intro s routes
    rfl
  · intro s logs summ route
    constructor
    · intro hlen
      simp [sweepStep, hlen]
    · intro id hsplit
      constructor
      · intro hsome
        obtain ⟨c, hc⟩ := Option.isSome_iff_exists.mp hsome
        simp [sweepStep, hsplit, hc, deleteChild]
      · intro hnone
        simp [sweepStep, hsplit, hnone]

/-- Witness for C7: with store `"3"` present and `/4` already swept, a
deep route is ignored, `/3` deletes the store, `/4` logs at generic
severity, `/9` logs at error severity, and the whole input is returned. -/
theorem deleteSweepReadyNodes_spec_witness :
    (deleteSweepReadyNodes wSweepState ["/3", "/3/dds/x", "/9", "/4"]).returnedRoutes =
      ["/3", "/3/dds/x", "/9", "/4"] ∧
    sweepStep (wSweepState, [], []) "/3/dds/x" = (wSweepState, [], []) ∧
    sweepStep (wSweepState, [], []) "/3" =
      ({ wSweepState with contexts := wSweepState.contexts.delete "3" }, [], ["3"]) ∧
    sweepStep (wSweepState, [], []) "/4" =
      (wSweepState, [⟨"DeletedDataStoreNotFound", .generic⟩], []) ∧
    sweepStep (wSweepState, [], []) "/9" =
      (wSweepState, [⟨"DeletedDataStoreNotFound", .error⟩], []) := by
  have h := deleteSweepReadyNodes_spec
  refine ⟨h.1 wSweepState _, ?_, ?_, ?_, ?_⟩
  · exact (h.2 wSweepState [] [] "/3/dds/x").1 (by decide)
  · exact ((h.2 wSweepState [] [] "/3").2 "3" (by decide)).1 (by decide)
  · exact ((h.2 wSweepState [] [] "/4").2 "4" (by decide)).2 (by decide)
  · exact ((h.2 wSweepState [] [] "/9").2 "9" (by decide)).2 (by decide)

/-- C4: a remote Attach op whose id is already known (a context id or an
alias) throws `DataCorruptionError`; a remote Attach op with an unknown id
constructs a remote context whose storage wraps the parent's storage and
additionally serves the blobs inlined in the attach snapshot, added to the
addressable partition. -/
theorem processAttachMessage_remote_spec (s : ChannelCollectionState)
    (m : IAttachMessage) (parentBlobs : List (String × String)) (hwf : StateWF s) :
    (alreadyProcessed s m.id = true →
      processAttachMessage s m false =
        .error (.dataCorruption "Duplicate DataStore created with existing id")) ∧
    (alreadyProcessed s m.id = false →
      ∃ out, processAttachMessage s m false = .ok out ∧
        ∃ c, out.state.contexts.get m.id = some c ∧
          c.attachState = .Attached ∧
          c.storage = .withAttachBlobs .parent (inlineBlobsOf m) ∧
          (∀ blobId, readBlob parentBlobs c.storage blobId =
            (match alookup (inlineBlobsOf m) blobId with
              | some b => some b
              | none => alookup parentBlobs blobId)) ∧
          out.state.contexts.getUnbound m.id = none) := by
  have hsame : alreadyProcessed
      { s with dataStoresSinceLastGC := s.dataStoresSinceLastGC ++ [m.id] } m.id =
      alreadyProcessed s m.id := rfl
  constructor
  · intro h
    simp [processAttachMessage, hsame, h]
  · intro h
    simp only [processAttachMessage, Bool.false_eq_true, if_false, hsame, h]
    refine ⟨_, rfl, ?_⟩
    refine ⟨⟨m.id, [m.type], .Attached, false, .withAttachBlobs .parent (inlineBlobsOf m),
      [], ⟨[], [], none⟩⟩, ?_, rfl, rfl, ?_, ?_⟩
    · simp [DataStoreContexts.get, DataStoreContexts.addBoundOrRemoted, alookup_ainsert]
    · intro blobId
      rfl
    · have hget : (s.contexts.get m.id).isSome = false := by
        cases hg : s.contexts.get m.id with
        | none => rfl
        | some c =>
          exfalso
          have : alreadyProcessed s m.id = true := by
            simp [alreadyProcessed, hg]
          rw [this] at h
          cases h
      have hnb : s.contexts.notBound.contains m.id = false := by
        by_contra hb
        have hmem : m.id ∈ s.contexts.notBound := by
          have := Bool.of_not_eq_false hb
          simpa using this
        have := hwf.2.2.2 m.id hmem
        rw [show alookup s.contexts.ctxs m.id = s.contexts.get m.id from rfl, hget] at this
        cases this
      simp only [DataStoreContexts.getUnbound, DataStoreContexts.addBoundOrRemoted, hnb,
        Bool.false_eq_true, if_false]

/-- Witness for C4: in a container already holding store `"7"`, a remote
attach for `"7"` is a duplicate error, and a remote attach for `"9"` with
an inline blob creates an addressable Attached context whose storage serves
that blob before the parent storage. -/
theorem processAttachMessage_remote_spec_witness :
    processAttachMessage wAliasState { wRemoteAttachMessage with id := "7" } false =
      .error (.dataCorruption "Duplicate DataStore created with existing id") ∧
    ∃ out, processAttachMessage wAliasState wRemoteAttachMessage false = .ok out ∧
      ∃ c, out.state.contexts.get "9" = some c ∧
        c.attachState = .Attached ∧
        readBlob [("b2", "parentdata")] c.storage "b1" = some "blobdata" ∧
        readBlob [("b2", "parentdata")] c.storage "b2" = some "parentdata" := by
  constructor
  · exact (processAttachMessage_remote_spec wAliasState
      { wRemoteAttachMessage with id := "7" } [] (by decide)).1 (by decide)
  · obtain ⟨out, hok, c, hget, hatt, _hsto, hread, _hunb⟩ :=
      (processAttachMessage_remote_spec wAliasState wRemoteAttachMessage
        [("b2", "parentdata")] (by decide)).2 (by decide)
    refine ⟨out, hok, c, hget, hatt, ?_, ?_⟩
    · rw [hread "b1"]
      rfl
    · rw [hread "b2"]
      rfl

/-- C1: processing an inbound Alias op rejects (result `false`) with no
state change when the alias is already processed; rejects with a logged
error when no context exists for the internal id; otherwise maps the alias
to the internal id, marks the context root in memory, and emits a GC edge
from the container handle to the aliased store; a local op invokes the
resolver carried in `localOpMetadata` with the boolean result. -/
theorem processAliasMessage_spec (s : ChannelCollectionState)
    (internalId aliasName : String) (local_ : Bool) (hwf : StateWF s)
    (hdel : ∀ id, isDataStoreDeleted s ("/" ++ id) = true → s.contexts.get id = none) :
    ((processAliasMessage s internalId aliasName local_).resolverCalls =
      (if local_ then [(processAliasMessage s internalId aliasName local_).result]
        else [])) ∧
    (alreadyProcessed s aliasName = true →
      processAliasMessage s internalId aliasName local_ =
        ⟨false, s, [], [], if local_ then [false] else []⟩) ∧
    (alreadyProcessed s aliasName = false → s.contexts.get internalId = none →
      (processAliasMessage s internalId aliasName local_).result = false ∧
      (processAliasMessage s internalId aliasName local_).state = s ∧
      (processAliasMessage s internalId aliasName local_).gcEdges = [] ∧
      ∃ e, (processAliasMessage s internalId aliasName local_).logs = [e] ∧
        e.severity = .error) ∧
    (∀ c, alreadyProcessed s aliasName = false → s.contexts.get internalId = some c →
      (processAliasMessage s internalId aliasName local_).result = true ∧
      alookup (processAliasMessage s internalId aliasName local_).state.aliasMap
        aliasName = some internalId ∧
      (processAliasMessage s internalId aliasName local_).state.contexts.get
        internalId = some { c with root := true } ∧
      (processAliasMessage s internalId aliasName local_).gcEdges =
        [("/", "/" ++ internalId)]) := by
  refine ⟨rfl, ?_, ?_, ?_⟩
  · intro h
    simp [processAliasMessage, processAliasMessageCore, h]
  · intro h hnone
    by_cases hdeleted : checkAndLogIfDeleted s internalId
    · refine ⟨?_, ?_, ?_, ⟨"GC_Deleted_DataStore_Changed", .error⟩, ?_, rfl⟩ <;>
        simp [processAliasMessage, processAliasMessageCore, h, hdeleted, hnone]
    · refine ⟨?_, ?_, ?_, ⟨"AliasFluidDataStoreNotFound", .error⟩, ?_, rfl⟩ <;>
        simp [processAliasMessage, processAliasMessageCore, h, hdeleted, hnone]
  · intro c h hsome
    have hnotdel : checkAndLogIfDeleted s internalId = false := by
      cases hd : checkAndLogIfDeleted s internalId with
      | false => rfl
      | true =>
        rw [hdel internalId hd] at hsome
        cases hsome
    have hcid : c.id = internalId := hwf.1 (internalId, c) (alookup_mem _ _ _ hsome)
    have hsome' : alookup s.contexts.ctxs internalId = some c := hsome
    refine ⟨?_, ?_, ?_, ?_⟩ <;>
      simp [processAliasMessage, processAliasMessageCore, h, hnotdel, hsome',
        DataStoreContexts.get, DataStoreContexts.update, hcid, alookup_ainsert,
        alookup_aupdate]

/-- Witness for C1: aliasing store `"7"` to `"root"` in a local op succeeds,
records the alias, marks the context root, emits the GC edge and invokes
the resolver with `true`. -/
theorem processAliasMessage_spec_witness :
    (processAliasMessage wAliasState "7" "root" true).result = true ∧
    alookup (processAliasMessage wAliasState "7" "root" true).state.aliasMap "root" =
      some "7" ∧
    (processAliasMessage wAliasState "7" "root" true).state.contexts.get "7" =
      some { sampleContext "7" with root := true } ∧
    (processAliasMessage wAliasState "7" "root" true).gcEdges = [("/", "/7")] ∧
    (processAliasMessage wAliasState "7" "root" true).resolverCalls = [true] := by
  have h := processAliasMessage_spec wAliasState "7" "root" true (by decide)
    (fun id hdl => by simp [isDataStoreDeleted, wAliasState, initialState] at hdl)
  obtain ⟨hres, hmap, hctx, hedge⟩ := h.2.2.2 (sampleContext "7") (by decide) rfl
  refine ⟨hres, hmap, hctx, hedge, ?_⟩
  rw [h.1, hres]
  rfl

/-- C2: in a non-detached container, making a locally created store visible
submits one Attach op and records the id in the pending-attach map;
processing the echoed Attach with `local = true` transitions the context to
Attached and removes the pending entry; a local Attach ack whose id is not
pending fails the internal-consistency assert 0x15e. -/
theorem attachRoundtrip_spec :
    (∀ (s : ChannelCollectionState) (id : String) (c : FluidDataStoreContext),
      StateWF s → s.containerAttachState ≠ .Detached →
      s.contexts.getUnbound id = some c →
      ∃ s1 msg, makeDataStoreLocallyVisible s id = .ok (s1, [msg]) ∧
        msg.id = id ∧ alookup s1.pendingAttach id = some msg ∧
        ∃ out, processAttachMessage s1 msg true = .ok out ∧
          out.state.contexts.get id = some { c with attachState := .Attached } ∧
          alookup out.state.pendingAttach id = none) ∧
    (∀ (s : ChannelCollectionState) (m : IAttachMessage),
      alookup s.pendingAttach m.id = none →
      processAttachMessage s m true = .error (.internalConsistency 0x15e)) := by
  constructor
  · intro s id c hwf hnd hub
    have hlook : alookup s.contexts.ctxs id = some c := by
      unfold DataStoreContexts.getUnbound at hub
      by_cases hb : s.contexts.notBound.contains id
      · rw [if_pos hb] at hub
        exact hub
      · rw [if_neg hb] at hub
        cases hub
    have hcid : c.id = id := hwf.1 (id, c) (alookup_mem _ _ _ hlook)
    refine ⟨{ s with
        contexts := ⟨aupdate (fun x => { x with attachState := .Attaching }) s.contexts.ctxs id,
          s.contexts.notBound.erase id⟩,
        pendingAttach := ainsert s.pendingAttach c.id (generateAttachMessage c),
        attachOpFired := c.id :: s.attachOpFired },
      generateAttachMessage c, ?_, hcid, ?_, ?_⟩
    · unfold makeDataStoreLocallyVisible
      rw [hub]
      simp only [if_pos hnd]
      rfl
    · show alookup (ainsert s.pendingAttach c.id (generateAttachMessage c)) id = _
      rw [← hcid]
      exact alookup_ainsert _ _ _
    · have hpend : (alookup (ainsert s.pendingAttach c.id (generateAttachMessage c))
          (generateAttachMessage c).id).isSome = true := by
        show (alookup (ainsert s.pendingAttach c.id (generateAttachMessage c)) c.id).isSome = true
        rw [alookup_ainsert]
        rfl
      unfold processAttachMessage
      simp only [hpend, eq_self_iff_true, if_true]
      refine ⟨_, rfl, ?_, ?_⟩
      · show alookup (aupdate (fun x => { x with attachState := .Attached })
          (aupdate (fun x => { x with attachState := .Attaching }) s.contexts.ctxs id)
          c.id) id = _
        rw [← hcid] at hlook ⊢
        rw [alookup_aupdate, alookup_aupdate, hlook]
        rfl
      · show alookup (aerase (ainsert s.pendingAttach c.id (generateAttachMessage c))
          c.id) id = none
        rw [← hcid]
        exact alookup_aerase_self _ _ (ainsert_keys_nodup _ _ _ hwf.2.2.1)
  · intro s m hnone
    unfold processAttachMessage
    have hfalse : (alookup (({ s with
      dataStoresSinceLastGC := s.dataStoresSinceLastGC ++ [m.id] } :
        ChannelCollectionState).pendingAttach) m.id).isSome = false := by
      show (alookup s.pendingAttach m.id).isSome = false
      rw [hnone]
      rfl
    simp only [hfalse, if_true, Bool.false_eq_true, if_false, if_pos rfl]

/-- Witness for C2: making unbound store `"5"` visible in the attached
container submits its attach message, records it pending, and the echoed
local ack attaches the context and clears the pending entry; an ack for an
id that was never pending fails assert 0x15e. -/
theorem attachRoundtrip_spec_witness :
    (∃ s1 msg, makeDataStoreLocallyVisible wAttachState "5" = .ok (s1, [msg]) ∧
      msg.id = "5" ∧ alookup s1.pendingAttach "5" = some msg ∧
      ∃ out, processAttachMessage s1 msg true = .ok out ∧
        out.state.contexts.get "5" =
          some { sampleContext "5" with pkg := ["p", "q"], attachState := .Attached } ∧
        alookup out.state.pendingAttach "5" = none) ∧
    processAttachMessage (initialState .Attached) wRemoteAttachMessage true =
      .error (.internalConsistency 0x15e) := by
  constructor
  · exact attachRoundtrip_spec.1 wAttachState "5"
      { sampleContext "5" with pkg := ["p", "q"], attachState := .Detached }
      (by decide) (by decide) rfl
  · exact attachRoundtrip_spec.2 (initialState .Attached) wRemoteAttachMessage rfl

theorem list_contains_iff {l : List String} {a : String} : l.contains a = true ↔ a ∈ l := by
  show l.elem a = true ↔ a ∈ l
  exact List.elem_iff

theorem pendingAttachInv_iff (s : ChannelCollectionState) :
    PendingAttachInv s ↔ (s.containerAttachState ≠ .Detached →
      ∀ id, id ∈ pendingIds s ↔ id ∈ attachingIds s) := by
  unfold PendingAttachInv
  constructor
  · intro h hnd id
    obtain ⟨h1, h2⟩ := h hnd
    constructor
    · intro hm
      exact list_contains_iff.mp (List.all_eq_true.mp h1 id hm)
    · intro hm
      exact list_contains_iff.mp (List.all_eq_true.mp h2 id hm)
  · intro h hnd
    constructor
    · rw [List.all_eq_true]
      intro id hm
      exact list_contains_iff.mpr ((h hnd id).mp hm)
    · rw [List.all_eq_true]
      intro id hm
      exact list_contains_iff.mpr ((h hnd id).mpr hm)

theorem mem_pendingIds_iff (s : ChannelCollectionState) (id : String) :
    id ∈ pendingIds s ↔ (alookup s.pendingAttach id).isSome :=
  ⟨fun h => alookup_isSome_of_mem_keys _ _ h, fun h => mem_keys_of_alookup_isSome _ _ h⟩

theorem mem_attachingIds_iff (s : ChannelCollectionState) (id : String)
    (hn : (s.contexts.ctxs.map Prod.fst).Nodup) :
    id ∈ attachingIds s ↔
      ∃ c, alookup s.contexts.ctxs id = some c ∧ c.attachState = .Attaching := by
  unfold attachingIds
  exact mem_filterMap_keys_iff (fun c => c.attachState = .Attaching) s.contexts.ctxs id hn

/-- Lookup-level reading of the pending-attach invariant. -/
theorem pendingAttachInv_lookup_iff (s : ChannelCollectionState)
    (hn : (s.contexts.ctxs.map Prod.fst).Nodup) :
    PendingAttachInv s ↔ (s.containerAttachState ≠ .Detached →
      ∀ id, (alookup s.pendingAttach id).isSome ↔
        ∃ c, alookup s.contexts.ctxs id = some c ∧ c.attachState = .Attaching) := by
  rw [pendingAttachInv_iff]
  constructor <;> intro h hnd id
  · rw [← mem_pendingIds_iff, ← mem_attachingIds_iff _ _ hn]
    exact h hnd id
  · rw [mem_pendingIds_iff, mem_attachingIds_iff _ _ hn]
    exact h hnd id

theorem alookup_ainsert_isSome {α : Type} (l : List (String × α)) (key key' : String)
    (v : α) :
    (alookup (ainsert l key v) key').isSome ↔ key' = key ∨ (alookup l key').isSome := by
  by_cases h : key' = key
  · subst h
    simp [alookup_ainsert]
  · rw [alookup_ainsert_ne _ _ _ _ (fun hk => h hk.symm)]
    simp [h]

theorem inv_createContext (s : ChannelCollectionState) (id : String) (pkg : List String)
    (hwf : StateWF s) (hinv : PendingAttachInv s) (hfresh : s.contexts.get id = none) :
    PendingAttachInv (createContext s id pkg) := by
  have hn := hwf.2.1
  have hn' : ((createContext s id pkg).contexts.ctxs.map Prod.fst).Nodup := by
    simp only [createContext, DataStoreContexts.addUnbound]
    exact ainsert_keys_nodup _ _ _ hn
  rw [pendingAttachInv_lookup_iff _ hn']
  rw [pendingAttachInv_lookup_iff _ hn] at hinv
  intro hnd id'
  have hnd2 : s.containerAttachState ≠ .Detached := hnd
  have hinv' := hinv hnd2 id'
  simp only [createContext, DataStoreContexts.addUnbound]
  by_cases hid : id = id'
  · subst hid
    rw [alookup_ainsert]
    constructor
    · intro hp
      obtain ⟨c, hc, _⟩ := hinv'.mp hp
      rw [show alookup s.contexts.ctxs id = none from hfresh] at hc
      cases hc
    · rintro ⟨c, hc, hatt⟩
      rw [Option.some.injEq] at hc
      rw [← hc] at hatt
      cases hatt
  · rw [alookup_ainsert_ne _ _ _ _ hid]
    exact hinv'

theorem inv_makeDataStoreLocallyVisible (s : ChannelCollectionState) (id : String)
    (r : ChannelCollectionState × List IAttachMessage) (hwf : StateWF s)
    (hinv : PendingAttachInv s) (hok : makeDataStoreLocallyVisible s id = .ok r) :
    PendingAttachInv r.1 := by
  unfold makeDataStoreLocallyVisible at hok
  split at hok
  · cases hok
  · next c hub =>
    have hlook : alookup s.contexts.ctxs id = some c := by
      unfold DataStoreContexts.getUnbound at hub
      by_cases hb : s.contexts.notBound.contains id
      · rw [if_pos hb] at hub
        exact hub
      · rw [if_neg hb] at hub
        cases hub
    have hcid : c.id = id := hwf.1 (id, c) (alookup_mem _ _ _ hlook)
    split at hok
    · next hnd =>
      cases hok
      have hn := hwf.2.1
      rw [pendingAttachInv_lookup_iff _ hn] at hinv
      rw [pendingAttachInv_lookup_iff]
      · intro _ id'
        have hinv' := hinv hnd id'
        show (alookup (ainsert s.pendingAttach c.id (generateAttachMessage c)) id').isSome ↔
          ∃ c', alookup (aupdate (fun x => { x with attachState := .Attaching })
            s.contexts.ctxs id) id' = some c' ∧ c'.attachState = .Attaching
        rw [alookup_ainsert_isSome, hcid]
        by_cases hid : id' = id
        · subst hid
          rw [alookup_aupdate, hlook]
          simp
        · rw [alookup_aupdate_ne _ _ _ _ (fun hk => hid hk.symm)]
          simp only [hid, false_or]
          exact hinv'
      · show ((aupdate (fun x => { x with attachState := .Attaching })
          s.contexts.ctxs id).map Prod.fst).Nodup
        rw [aupdate_keys]
        exact hwf.2.1
    · next hnd =>
      cases hok
      intro hnd'
      exact absurd (show s.containerAttachState = .Detached from not_not.mp hnd) hnd'

theorem inv_processAttachMessage (s : ChannelCollectionState) (m : IAttachMessage)
    (local_ : Bool) (out : AttachOutcome) (hwf : StateWF s) (hinv : PendingAttachInv s)
    (hok : processAttachMessage s m local_ = .ok out) : PendingAttachInv out.state := by
  unfold processAttachMessage at hok
  have hn := hwf.2.1
  cases local_ with
  | true =>
    by_cases hp : (alookup s.pendingAttach m.id).isSome
    · rw [if_pos rfl, if_pos hp] at hok
      cases hok
      rw [pendingAttachInv_lookup_iff _ hn] at hinv
      rw [pendingAttachInv_lookup_iff]
      · intro hnd id'
        have hnd2 : s.containerAttachState ≠ .Detached := hnd
        have hinv' := hinv hnd2 id'
        show (alookup (aerase s.pendingAttach m.id) id').isSome ↔
          ∃ c', alookup (aupdate (fun x => { x with attachState := .Attached })
            s.contexts.ctxs m.id) id' = some c' ∧ c'.attachState = .Attaching
        by_cases hid : id' = m.id
        · subst hid
          rw [alookup_aerase_self _ _ hwf.2.2.1, alookup_aupdate]
          cases hc : alookup s.contexts.ctxs m.id with
          | none => simp [hc]
          | some c'' =>
            simp only [hc, Option.map_some', Option.isSome_none, Bool.false_eq_true,
              false_iff]
            rintro ⟨c', hc', hatt⟩
            cases hc'
            cases hatt
        · rw [alookup_aerase_ne _ _ _ (fun hk => hid hk.symm),
            alookup_aupdate_ne _ _ _ _ (fun hk => hid hk.symm)]
          exact hinv'
      · show ((aupdate (fun x => { x with attachState := .Attached })
          s.contexts.ctxs m.id).map Prod.fst).Nodup
        rw [aupdate_keys]
        exact hn
    · rw [if_pos rfl, if_neg hp] at hok
      cases hok
  | false =>
    by_cases hap : alreadyProcessed s m.id = true
    · have hap' : alreadyProcessed { s with
        dataStoresSinceLastGC := s.dataStoresSinceLastGC ++ [m.id] } m.id = true := hap
      rw [if_neg (by simp), if_pos hap'] at hok
      cases hok
    · have hap' : ¬ alreadyProcessed { s with
        dataStoresSinceLastGC := s.dataStoresSinceLastGC ++ [m.id] } m.id = true := hap
      rw [if_neg (by simp), if_neg hap'] at hok
      cases hok
      have hget : alookup s.contexts.ctxs m.id = none := by
        cases hg : alookup s.contexts.ctxs m.id with
        | none => rfl
        | some c =>
          exfalso
          exact hap (by simp [alreadyProcessed, DataStoreContexts.get, hg])
      rw [pendingAttachInv_lookup_iff _ hn] at hinv
      rw [pendingAttachInv_lookup_iff]
      · intro hnd id'
        have hnd2 : s.containerAttachState ≠ .Detached := hnd
        have hinv' := hinv hnd2 id'
        show (alookup s.pendingAttach id').isSome ↔
          ∃ c', alookup (ainsert s.contexts.ctxs m.id _) id' = some c' ∧
            c'.attachState = .Attaching
        by_cases hid : id' = m.id
        · subst hid
          rw [alookup_ainsert]
          constructor
          · intro hps
            obtain ⟨c', hc', _⟩ := hinv'.mp hps
            rw [hget] at hc'
            cases hc'
          · rintro ⟨c', hc', hatt⟩
            rw [Option.some.injEq] at hc'
            rw [← hc'] at hatt
            cases hatt
        · rw [alookup_ainsert_ne _ _ _ _ (fun hk => hid hk.symm)]
          exact hinv'
      · show ((ainsert s.contexts.ctxs m.id _).map Prod.fst).Nodup
        exact ainsert_keys_nodup _ _ _ hn

theorem inv_applyStashedAttachOp (s : ChannelCollectionState) (m : IAttachMessage)
    (hwf : StateWF s) (hinv : PendingAttachInv s) :
    PendingAttachInv (applyStashedAttachOp s m) := by
  have hn := hwf.2.1
  by_cases hd : s.containerAttachState = .Detached
  · have hd' : ¬ s.containerAttachState ≠ .Detached := not_not.mpr hd
    unfold applyStashedAttachOp
    simp only [if_neg hd']
    intro hnd
    exact absurd hd hnd
  · unfold applyStashedAttachOp
    simp only [if_pos hd]
    rw [pendingAttachInv_lookup_iff _ hn] at hinv
    rw [pendingAttachInv_lookup_iff]
    · intro _ id'
      have hinv' := hinv hd id'
      show (alookup (ainsert s.pendingAttach m.id m) id').isSome ↔
        ∃ c', alookup (ainsert s.contexts.ctxs m.id _) id' = some c' ∧
          c'.attachState = .Attaching
      rw [alookup_ainsert_isSome]
      by_cases hid : id' = m.id
      · subst hid
        rw [alookup_ainsert]
        simp only [true_or, true_iff]
        exact ⟨_, rfl, by simp [if_pos hd]⟩
      · rw [alookup_ainsert_ne _ _ _ _ (fun hk => hid hk.symm)]
        simp only [hid, false_or]
        exact hinv'
    · show ((ainsert s.contexts.ctxs m.id _).map Prod.fst).Nodup
      exact ainsert_keys_nodup _ _ _ hn

theorem inv_rollback (s : ChannelCollectionState) (msgType : ContainerMessageType)
    (address : String) (s' : ChannelCollectionState)
    (hok : rollback s msgType address = .ok s') (hinv : PendingAttachInv s) :
    PendingAttachInv s' := by
  unfold rollback at hok
  by_cases ht : msgType ≠ .fluidDataStoreOp
  · rw [if_pos ht] at hok
    cases hok
  · rw [if_neg ht] at hok
    by_cases hdel : checkAndLogIfDeleted s address
    · rw [if_pos hdel] at hok
      cases hok
    · rw [if_neg hdel] at hok
      cases hg : s.contexts.get address with
      | none =>
        rw [hg] at hok
        cases hok
      | some c =>
        rw [hg] at hok
        cases hok
        exact hinv

theorem inv_sweep_fold (routes : List String) :
    ∀ (t : ChannelCollectionState) (logs : List LogEvent) (summ : List String),
    (t.contexts.ctxs.map Prod.fst).Nodup →
    PendingAttachInv t →
    (∀ route ∈ routes, ∀ c,
      alookup t.contexts.ctxs ((splitRoute route)[1]?.getD "undefined") = some c →
      c.attachState ≠ .Attaching) →
    PendingAttachInv (routes.foldl sweepStep (t, logs, summ)).1 ∧
    ((routes.foldl sweepStep (t, logs, summ)).1.contexts.ctxs.map Prod.fst).Nodup := by
  induction routes with
  | nil =>
    intro t logs summ hn hinv _
    exact ⟨hinv, hn⟩
  | cons route rest ih =>
    intro t logs summ hn hinv hsafe
    rw [List.foldl_cons]
    by_cases hlen : (splitRoute route).length > 2
    · have hstep : sweepStep (t, logs, summ) route = (t, logs, summ) := by
        simp [sweepStep, hlen]
      rw [hstep]
      exact ih t logs summ hn hinv (fun r hr => hsafe r (List.mem_cons_of_mem _ hr))
    · cases hget : alookup t.contexts.ctxs
        ((splitRoute route)[1]?.getD "undefined") with
      | none =>
        have hstep : sweepStep (t, logs, summ) route =
            (t, logs ++ [⟨"DeletedDataStoreNotFound",
              if isDataStoreDeleted t
                ("/" ++ (splitRoute route)[1]?.getD "undefined")
              then .generic else .error⟩], summ) := by
          simp [sweepStep, hlen, DataStoreContexts.get, hget]
        rw [hstep]
        exact ih t _ summ hn hinv (fun r hr => hsafe r (List.mem_cons_of_mem _ hr))
      | some c =>
        have hstep : sweepStep (t, logs, summ) route =
            ((deleteChild t ((splitRoute route)[1]?.getD "undefined")).1, logs,
              summ ++ (deleteChild t ((splitRoute route)[1]?.getD "undefined")).2) := by
          simp [sweepStep, hlen, DataStoreContexts.get, hget]
        rw [hstep]
        have hcna : c.attachState ≠ .Attaching :=
          hsafe route (List.mem_cons_self _ _) c hget
        have hn' : ((aerase t.contexts.ctxs
            ((splitRoute route)[1]?.getD "undefined")).map Prod.fst).Nodup :=
          aerase_keys_nodup _ _ hn
        have hinv' : PendingAttachInv
            (deleteChild t ((splitRoute route)[1]?.getD "undefined")).1 := by
          rw [pendingAttachInv_lookup_iff _ hn] at hinv
          rw [pendingAttachInv_lookup_iff]
          · intro hnd id'
            have hnd2 : t.containerAttachState ≠ .Detached := hnd
            have hinv2 := hinv hnd2 id'
            show (alookup t.pendingAttach id').isSome ↔
              ∃ c', alookup (aerase t.contexts.ctxs
                ((splitRoute route)[1]?.getD "undefined")) id' = some c' ∧
                c'.attachState = .Attaching
            by_cases hid : id' = (splitRoute route)[1]?.getD "undefined"
            · subst hid
              rw [alookup_aerase_self _ _ hn]
              constructor
              · intro hp
                obtain ⟨c', hc', hatt⟩ := hinv2.mp hp
                rw [hget] at hc'
                rw [Option.some.injEq] at hc'
                subst hc'
                exact absurd hatt hcna
              · rintro ⟨c', hc', _⟩
                cases hc'
            · rw [alookup_aerase_ne _ _ _ (fun hk => hid hk.symm)]
              exact hinv2
          · exact hn'
        refine ih _ _ _ hn' hinv' ?_
        intro r hr c' hc'
        exact hsafe r (List.mem_cons_of_mem _ hr) c'
          (alookup_of_alookup_aerase _ _ _ _ hn hc')

theorem inv_deleteSweepReadyNodes (s : ChannelCollectionState) (routes : List String)
    (hwf : StateWF s) (hinv : PendingAttachInv s)
    (hsafe : ∀ route ∈ routes, ∀ c,
      alookup s.contexts.ctxs ((splitRoute route)[1]?.getD "undefined") = some c →
      c.attachState ≠ .Attaching) :
    PendingAttachInv (deleteSweepReadyNodes s routes).state :=
  (inv_sweep_fold routes s [] [] hwf.2.1 hinv hsafe).1

/-- C3 counterexample: starting from a fresh attached container, creating a
store (id `"1"`), making it locally visible (Attaching, pending-attach
entry present) keeps the invariant, but sweep-deleting the store while it
is still Attaching leaves its pending-attach entry behind with no Attaching
context, falsifying the claimed invariant after a deletion. -/
theorem pendingAttachInv_counterexample :
    PendingAttachInv cexState0 ∧ PendingAttachInv cexState1 ∧
    PendingAttachInv cexState2 ∧ ¬ PendingAttachInv cexState3 := by
  decide

/-- C3 amended: after creating a store with a fresh id, making a store
visible, processing an Attach op, applying a stashed attach op, and
rollback, the key set of the pending-attach map equals the set of context
ids in Attaching state while the container is not detached; deletion
preserves this invariant only when no deleted context is in Attaching
state, because `deleteChild` does not clear pending-attach entries. -/
theorem pendingAttachInv_preservation :
    (∀ (s : ChannelCollectionState) (id : String) (pkg : List String),
      StateWF s → PendingAttachInv s → s.contexts.get id = none →
      PendingAttachInv (createContext s id pkg)) ∧
    (∀ (s : ChannelCollectionState) (id : String)
        (r : ChannelCollectionState × List IAttachMessage),
      StateWF s → PendingAttachInv s →
      makeDataStoreLocallyVisible s id = .ok r → PendingAttachInv r.1) ∧
    (∀ (s : ChannelCollectionState) (m : IAttachMessage) (local_ : Bool)
        (out : AttachOutcome),
      StateWF s → PendingAttachInv s →
      processAttachMessage s m local_ = .ok out → PendingAttachInv out.state) ∧
    (∀ (s : ChannelCollectionState) (m : IAttachMessage),
      StateWF s → PendingAttachInv s → PendingAttachInv (applyStashedAttachOp s m)) ∧
    (∀ (s : ChannelCollectionState) (msgType : ContainerMessageType) (address : String)
        (s' : ChannelCollectionState),
      rollback s msgType address = .ok s' → PendingAttachInv s → PendingAttachInv s') ∧
    (∀ (s : ChannelCollectionState) (routes : List String),
      StateWF s → PendingAttachInv s →
      (∀ route ∈ routes, ∀ c,
        alookup s.contexts.ctxs ((splitRoute route)[1]?.getD "undefined") = some c →
        c.attachState ≠ .Attaching) →
      PendingAttachInv (deleteSweepReadyNodes s routes).state) :=
  ⟨fun s id pkg hwf hinv hfresh => inv_createContext s id pkg hwf hinv hfresh,
   fun s id r hwf hinv hok => inv_makeDataStoreLocallyVisible s id r hwf hinv hok,
   fun s m local_ out hwf hinv hok => inv_processAttachMessage s m local_ out hwf hinv hok,
   fun s m hwf hinv => inv_applyStashedAttachOp s m hwf hinv,
   fun s msgType address s' hok hinv => inv_rollback s msgType address s' hok hinv,
   fun s routes hwf hinv hsafe => inv_deleteSweepReadyNodes s routes hwf hinv hsafe⟩

/-- Witness for the amended C3 at concrete inputs: creating a store in the
fresh attached container and sweep-deleting an absent store both preserve
the invariant. -/
theorem pendingAttachInv_preservation_witness :
    PendingAttachInv (createContext cexState0 "a" ["p"]) ∧
    PendingAttachInv (deleteSweepReadyNodes cexState2 ["/9"]).state := by
  constructor
  · exact pendingAttachInv_preservation.1 cexState0 "a" ["p"] (by decide) (by decide) rfl
  · refine pendingAttachInv_preservation.2.2.2.2.2 cexState2 ["/9"]
      (by decide) (by decide) ?_
    intro route hr c hc
    rcases List.mem_singleton.mp hr with rfl
    rw [show alookup cexState2.contexts.ctxs
      ((splitRoute "/9")[1]?.getD "undefined") = none from rfl] at hc
    cases hc

end FluidCC
